import Mathlib

/-!
# Verification of the LiquidCrystal-I2C display driver

A shallow embedding of the HD44780 LCD driver accessed through an I2C GPIO
expander (`src/LiquidCrystal_I2C.cpp` / `.h`).  Machine bytes (`uint8_t`) are
modelled as `Nat` with explicit `% 256` at the points where C++ narrows a
wider integer into a `uint8_t` parameter or variable.  The I2C transport and
the delay primitives are external collaborators: a transmission is recorded
as the byte handed to the wire, and delays are dropped (they carry no data).

Two trace levels are used:
* `Tx` records one protocol transmission as the source structures it:
  a `send value mode` call (one command or data byte), a raw expander write,
  or a direct 4-bit nibble write (used only by `begin`).
* `txBytes` expands a `Tx` into the exact list of bytes that reach the wire,
  each composed with the current backlight shadow bit, mirroring
  `expanderWrite`, `pulseEnable`, `write4bits` and `send`.

Public operations are an inductive `Op`; `step` is the state transformer that
mirrors each method body, and `run` folds a call sequence.
-/

namespace LCD

namespace Function
def Bit8 : Nat := 0x10
def Bit4 : Nat := 0x00
def Lines1 : Nat := 0x00
def Lines2 : Nat := 0x08
def Font5x8 : Nat := 0x00
def Font5x10 : Nat := 0x04
end Function

namespace Control
def On : Nat := 0x04
def Off : Nat := 0x00
def CursorOn : Nat := 0x02
def CursorOff : Nat := 0x00
def BlinkOn : Nat := 0x01
def BlinkOff : Nat := 0x00
end Control

namespace Mode
def Left : Nat := 0x02
def Right : Nat := 0x00
def ShiftIncr : Nat := 0x01
def ShiftDecr : Nat := 0x00
end Mode

namespace Shift
def DisplayMove : Nat := 0x08
def CursorMove : Nat := 0x00
def MoveRight : Nat := 0x04
def MoveLeft : Nat := 0x00
end Shift

namespace Backlight
def On : Nat := 0x08
def Off : Nat := 0x00
end Backlight

namespace Pin
def En : Nat := 0x04
def Rw : Nat := 0x02
def Rs : Nat := 0x01
end Pin

namespace Command
def ClearDisplay : Nat := 0x01
def ReturnHome : Nat := 0x02
def EntryModeSet : Nat := 0x04
def DisplayControl : Nat := 0x08
def CursorShift : Nat := 0x10
def FunctionSet : Nat := 0x20
def SetCGRAMAddr : Nat := 0x40
def SetDDRAMAddr : Nat := 0x80
end Command

end LCD

/-- The driver's shadow state: the `uint8_t` fields of class
`LiquidCrystal_I2C` (the wire reference is the external transport and is not
part of the state). -/
structure LiquidCrystal_I2C where
  addr : Nat
  displayfunction : Nat
  displaycontrol : Nat
  displaymode : Nat
  cols : Nat
  rows : Nat
  charsize : Nat
  backlightval : Nat
  deriving Repr, DecidableEq

namespace LiquidCrystal_I2C

/-- The constructor `LiquidCrystal_I2C(lcd_addr, lcd_cols, lcd_rows, charsize)`:
member initializers with the default flag values.  Arguments are narrowed to
`uint8_t` parameters. -/
def construct (lcd_addr lcd_cols lcd_rows charsize : Nat) : LiquidCrystal_I2C :=
  { addr := lcd_addr % 256
    displayfunction := LCD.Function.Bit4 ||| LCD.Function.Lines1 ||| LCD.Function.Font5x8
    displaycontrol := LCD.Control.On ||| LCD.Control.CursorOff ||| LCD.Control.BlinkOff
    displaymode := LCD.Mode.Left ||| LCD.Mode.ShiftDecr
    cols := lcd_cols % 256
    rows := lcd_rows % 256
    charsize := charsize % 256
    backlightval := LCD.Backlight.On }

end LiquidCrystal_I2C

/-- One protocol transmission, as structured by the source:
`send value mode` is a `send()` call (a full command or data byte),
`raw d` is a direct `expanderWrite(d)` call, and `nib v` a direct
`write4bits(v)` call (only `begin` uses the latter two). -/
inductive Tx where
  | send (value mode : Nat)
  | raw (d : Nat)
  | nib (v : Nat)
  deriving Repr, DecidableEq

/-- `command(value)`: `send(value, 0)`, with the `uint8_t` parameter
narrowing. -/
def commandTx (value : Nat) : Tx := Tx.send (value % 256) 0

/-- The `send(value, LCD::Pin::Rs)` call made by `write(value)`, with the
`uint8_t` parameter narrowing. -/
def writeTx (value : Nat) : Tx := Tx.send (value % 256) LCD.Pin.Rs

/-- `write(value)`: sends the byte as data and returns 1. -/
def LiquidCrystal_I2C.write (value : Nat) : List Tx × Nat :=
  ([writeTx value], 1)

/-- `expanderWrite(_data)`: one I2C byte, the data OR'd with the backlight
shadow value, narrowed to the byte the wire receives.  `bl` is the driver's
`_backlightval` at the moment of the write. -/
def expanderWrite (bl data : Nat) : List Nat :=
  [((data % 256) ||| bl) % 256]

/-- `pulseEnable(_data)`: enable high then enable low, around the fixed
delays. -/
def pulseEnable (bl data : Nat) : List Nat :=
  expanderWrite bl ((data % 256) ||| LCD.Pin.En) ++
  expanderWrite bl ((data % 256) &&& (0xFF ^^^ LCD.Pin.En))

/-- `write4bits(value)`: present the nibble byte, then pulse enable with it. -/
def write4bits (bl value : Nat) : List Nat :=
  expanderWrite bl value ++ pulseEnable bl value

/-- `send(value, mode)`: split into high and low nibble, each OR'd with the
mode bit and transmitted via `write4bits`. -/
def send (bl value mode : Nat) : List Nat :=
  write4bits bl (((value % 256) &&& 0xF0) ||| (mode % 256)) ++
  write4bits bl ((((value % 256) <<< 4) &&& 0xF0) ||| (mode % 256))

/-- Expand one structured transmission into the bytes that reach the wire,
given the backlight shadow value current at transmission time. -/
def txBytes (bl : Nat) : Tx → List Nat
  | Tx.send v m => send bl v m
  | Tx.raw d => expanderWrite bl d
  | Tx.nib v => write4bits bl v

/-- The local `row_offsets` table of `setCursor`. -/
def row_offsets : List Nat := [0x00, 0x40, 0x14, 0x54]

/-- The public operations of the driver (apart from `init`/`begin`, modelled
separately as `LiquidCrystal_I2C.begin`). -/
inductive Op where
  | clear
  | home
  | setCursor (col row : Nat)
  | display
  | noDisplay
  | cursor
  | noCursor
  | blink
  | noBlink
  | scrollDisplayLeft
  | scrollDisplayRight
  | leftToRight
  | rightToLeft
  | autoscroll
  | noAutoscroll
  | createChar (location : Nat) (charmap : List Nat)
  | backlight
  | noBacklight
  | write (value : Nat)
  | command (value : Nat)
  deriving Repr, DecidableEq

/-- One public method call: the updated shadow state and the transmissions
it issues, mirroring each method body of the source.  `setCursor` with an
out-of-bounds index into `row_offsets`, and `createChar` with fewer than the
8 bytes its loop reads, are undefined behaviour in the source and yield
`none`. -/
def step (s : LiquidCrystal_I2C) : Op → Option (LiquidCrystal_I2C × List Tx)
  | Op.clear => some (s, [commandTx LCD.Command.ClearDisplay])
  | Op.home => some (s, [commandTx LCD.Command.ReturnHome])
  | Op.setCursor col row =>
      let col := col % 256
      let row0 := row % 256
      let row1 := if row0 > s.rows then (s.rows + 255) % 256 else row0
      match row_offsets.get? row1 with
      | none => none
      | some off =>
          some (s, [commandTx (LCD.Command.SetDDRAMAddr ||| (col + off))])
  | Op.noDisplay =>
      let c := s.displaycontrol &&& (0xFF ^^^ LCD.Control.On)
      some ({ s with displaycontrol := c },
        [commandTx (LCD.Command.DisplayControl ||| c)])
  | Op.display =>
      let c := s.displaycontrol ||| LCD.Control.On
      some ({ s with displaycontrol := c },
        [commandTx (LCD.Command.DisplayControl ||| c)])
  | Op.noCursor =>
      let c := s.displaycontrol &&& (0xFF ^^^ LCD.Control.CursorOn)
      some ({ s with displaycontrol := c },
        [commandTx (LCD.Command.DisplayControl ||| c)])
  | Op.cursor =>
      let c := s.displaycontrol ||| LCD.Control.CursorOn
      some ({ s with displaycontrol := c },
        [commandTx (LCD.Command.DisplayControl ||| c)])
  | Op.noBlink =>
      let c := s.displaycontrol &&& (0xFF ^^^ LCD.Control.BlinkOn)
      some ({ s with displaycontrol := c },
        [commandTx (LCD.Command.DisplayControl ||| c)])
  | Op.blink =>
      let c := s.displaycontrol ||| LCD.Control.BlinkOn
      some ({ s with displaycontrol := c },
        [commandTx (LCD.Command.DisplayControl ||| c)])
  | Op.scrollDisplayLeft =>
      some (s, [commandTx
        (LCD.Shift.CursorMove ||| LCD.Shift.DisplayMove ||| LCD.Shift.MoveLeft)])
  | Op.scrollDisplayRight =>
      some (s, [commandTx
        (LCD.Shift.CursorMove ||| LCD.Shift.DisplayMove ||| LCD.Shift.MoveRight)])
  | Op.leftToRight =>
      let m := s.displaymode ||| LCD.Mode.Left
      some ({ s with displaymode := m },
        [commandTx (LCD.Command.EntryModeSet ||| m)])
  | Op.rightToLeft =>
      let m := s.displaymode &&& (0xFF ^^^ LCD.Mode.Left)
      some ({ s with displaymode := m },
        [commandTx (LCD.Command.EntryModeSet ||| m)])
  | Op.autoscroll =>
      let m := s.displaymode ||| LCD.Mode.ShiftIncr
      some ({ s with displaymode := m },
        [commandTx (LCD.Command.EntryModeSet ||| m)])
  | Op.noAutoscroll =>
      let m := s.displaymode &&& (0xFF ^^^ LCD.Mode.ShiftIncr)
      some ({ s with displaymode := m },
        [commandTx (LCD.Command.EntryModeSet ||| m)])
  | Op.createChar location charmap =>
      if 8 ≤ charmap.length then
        let location := (location % 256) &&& 0x7
        some (s, commandTx (LCD.Command.SetCGRAMAddr ||| (location <<< 3)) ::
          (charmap.take 8).map writeTx)
      else none
  | Op.backlight =>
      some ({ s with backlightval := LCD.Backlight.On }, [Tx.raw 0])
  | Op.noBacklight =>
      some ({ s with backlightval := LCD.Backlight.Off }, [Tx.raw 0])
  | Op.write value => some (s, (LiquidCrystal_I2C.write value).1)
  | Op.command value => some (s, [commandTx value])

/-- `begin()`: compute the function register from geometry and font selector,
run the datasheet reset handshake, then Function-Set, `display()`, `clear()`,
Entry-Mode-Set and `home()`. -/
def LiquidCrystal_I2C.begin (s : LiquidCrystal_I2C) :
    LiquidCrystal_I2C × List Tx :=
  let df0 := if s.rows > 1 then s.displayfunction ||| LCD.Function.Lines2
             else s.displayfunction
  let df := if s.charsize ≠ 0 ∧ s.rows = 1 then df0 ||| LCD.Function.Font5x10
            else df0
  let c := (s.displaycontrol ||| LCD.Control.On)
  ({ s with displayfunction := df, displaycontrol := c },
    [Tx.raw s.backlightval,
     Tx.nib (0x03 <<< 4), Tx.nib (0x03 <<< 4), Tx.nib (0x03 <<< 4),
     Tx.nib (0x02 <<< 4),
     commandTx (LCD.Command.FunctionSet ||| df),
     commandTx (LCD.Command.DisplayControl ||| c),
     commandTx LCD.Command.ClearDisplay,
     commandTx (LCD.Command.EntryModeSet ||| s.displaymode),
     commandTx LCD.Command.ReturnHome])

/-- The function register value `begin` computes before sending the
Function-Set command. -/
def beginFunction (s : LiquidCrystal_I2C) : Nat :=
  let df0 := if s.rows > 1 then s.displayfunction ||| LCD.Function.Lines2
             else s.displayfunction
  if s.charsize ≠ 0 ∧ s.rows = 1 then df0 ||| LCD.Function.Font5x10 else df0

/-- A step together with its wire-level byte expansion.  Every transmission
of a single method call happens after that call's own backlight-shadow
update (the two backlight methods assign `_backlightval` before writing), so
the new state's backlight value is the one composed into each byte. -/
def stepBytes (s : LiquidCrystal_I2C) (op : Op) :
    Option (LiquidCrystal_I2C × List Nat) :=
  (step s op).map fun p => (p.1, p.2.flatMap (txBytes p.1.backlightval))

/-- Run a sequence of public calls, concatenating the wire bytes. -/
def run (s : LiquidCrystal_I2C) : List Op → Option (LiquidCrystal_I2C × List Nat)
  | [] => some (s, [])
  | op :: ops =>
      (stepBytes s op).bind fun p =>
        (run p.1 ops).map fun q => (q.1, p.2 ++ q.2)

/-- How one public call transforms the backlight shadow value: the two
backlight methods overwrite it, every other method leaves it alone. -/
def backlightOf (a : Nat) (op : Op) : Nat :=
  match op with
  | Op.backlight => LCD.Backlight.On
  | Op.noBacklight => LCD.Backlight.Off
  | _ => a

/-- The backlight shadow value determined by the last backlight-affecting
call of a sequence (`LCD.Backlight.On` when there is none, matching the
constructor default). -/
def lastBacklight (ops : List Op) : Nat :=
  ops.foldl backlightOf LCD.Backlight.On

/-- The display on/off toggle pair, as booleans: `true` is `display()`,
`false` is `noDisplay()`. -/
def toDisplayOp (b : Bool) : Op :=
  if b then Op.display else Op.noDisplay

/-- The mutation `display()` / `noDisplay()` applies to the control-register
shadow byte. -/
def dcToggle (c : Nat) (b : Bool) : Nat :=
  if b then c ||| LCD.Control.On else c &&& (0xFF ^^^ LCD.Control.On)

/-- An operation preserves the four shadow flag fields. -/
def framePreserving (s : LiquidCrystal_I2C) (op : Op) : Prop :=
  ∀ s' tr, step s op = some (s', tr) →
    s'.displayfunction = s.displayfunction ∧
    s'.displaycontrol = s.displaycontrol ∧
    s'.displaymode = s.displaymode ∧
    s'.backlightval = s.backlightval

/-- The shape of every transmission a public call emits: `send` only with
the command mode or the Rs data mode, raw expander writes only with payload
zero, and never a bare nibble write. -/
def goodTx : Tx → Prop
  | Tx.send _ m => m = 0 ∨ m = LCD.Pin.Rs
  | Tx.raw d => d = 0
  | Tx.nib _ => False

/-!
## Theorems
-/

/-- C1: the spec asks that `scrollDisplayLeft()` / `scrollDisplayRight()`
issue a Cursor-Shift command, i.e. a command byte with the base bit `0x10`
set (together with `0x08`, and `0x00` resp. `0x04`).  The source instead ORs
`LCD::Shift::CursorMove` (`0x00`) — not `LCD::Command::CursorShift`
(`0x10`) — so the transmitted command bytes are `0x08` and `0x0C`: the
Cursor-Shift base bit is absent, in every state. -/
theorem scrollDisplay_cursorShift_bit_missing :
    (∀ s : LiquidCrystal_I2C,
      step s Op.scrollDisplayLeft = some (s, [Tx.send 0x08 0]) ∧
      step s Op.scrollDisplayRight = some (s, [Tx.send 0x0C 0])) ∧
    0x08 &&& LCD.Command.CursorShift = 0 ∧
    0x0C &&& LCD.Command.CursorShift = 0 ∧
    (LCD.Command.CursorShift ||| LCD.Shift.DisplayMove ||| LCD.Shift.MoveLeft)
      ≠ 0x08 := by
  exact ⟨fun s => ⟨rfl, rfl⟩, rfl, rfl, by decide⟩

/-- C9: the `row_offsets` lookup can go out of bounds through the public
interface: `setCursor(0, 4)` on a 4-row display passes `row == rows`
unclamped into the 4-entry table, and `setCursor(0, 1)` with `rows == 0`
clamps to `rows - 1 = 255` in 8-bit arithmetic; in the total embedding both
calls have no defined result. -/
theorem setCursor_row_offsets_out_of_bounds :
    step (LiquidCrystal_I2C.construct 0x27 20 4 0) (Op.setCursor 0 4) = none ∧
    step (LiquidCrystal_I2C.construct 0x27 16 0 0) (Op.setCursor 0 1) = none := by
  exact ⟨rfl, rfl⟩

/-- C2: for every column and every row below both the configured row count
and the table length, `setCursor(col, row)` issues exactly one Set-DDRAM
command whose byte is `0x80 ||| (col + row_offsets[row])`, with the fixed
offset table `[0x00, 0x40, 0x14, 0x54]`. -/
theorem setCursor_in_range_cmd (s : LiquidCrystal_I2C) (col row : Nat)
    (hrow : row < s.rows) (hrow4 : row < 4) (hcol : col < 256) :
    step s (Op.setCursor col row) =
      some (s, [Tx.send
        ((LCD.Command.SetDDRAMAddr ||| (col + row_offsets.getD row 0)) % 256) 0]) := by
  have h1 : row % 256 = row := Nat.mod_eq_of_lt (by omega)
  have h2 : col % 256 = col := Nat.mod_eq_of_lt hcol
  have h3 : ¬ (row > s.rows) := by omega
  simp only [step, h1, h2, if_neg h3]
  clear h1 h3 hrow
  interval_cases row <;>
    simp [row_offsets, commandTx, LCD.Command.SetDDRAMAddr]

/-- Witness for C2 at `s = construct 0x27 16 2 0`, `col = 3`, `row = 1`. -/
theorem setCursor_in_range_cmd_witness :
    step (LiquidCrystal_I2C.construct 0x27 16 2 0) (Op.setCursor 3 1) =
      some (LiquidCrystal_I2C.construct 0x27 16 2 0, [Tx.send
        ((LCD.Command.SetDDRAMAddr ||| (3 + row_offsets.getD 1 0)) % 256) 0]) :=
  setCursor_in_range_cmd (LiquidCrystal_I2C.construct 0x27 16 2 0) 3 1
    (by decide) (by decide) (by decide)

/-- C3: the clamp uses `row > rows`.  First part: every `row` strictly above
the configured row count is clamped to `rows - 1` (uint8 arithmetic), so the
command carries `offset[rows-1]`.  Second part: `row == rows` passes the
comparison unclamped and is looked up directly in the offset table. -/
theorem setCursor_clamp_policy :
    (∀ (s : LiquidCrystal_I2C) (col row : Nat),
        1 ≤ s.rows → s.rows ≤ 4 → s.rows < row → row < 256 → col < 256 →
        step s (Op.setCursor col row) =
          some (s, [Tx.send ((LCD.Command.SetDDRAMAddr |||
            (col + row_offsets.getD (s.rows - 1) 0)) % 256) 0])) ∧
    (∀ (s : LiquidCrystal_I2C) (col : Nat),
        s.rows < 4 → col < 256 →
        step s (Op.setCursor col s.rows) =
          some (s, [Tx.send ((LCD.Command.SetDDRAMAddr |||
            (col + row_offsets.getD s.rows 0)) % 256) 0])) := by
  constructor
  · intro s col row h1 h4 hgt hr hc
    have hr' : row % 256 = row := Nat.mod_eq_of_lt hr
    have hc' : col % 256 = col := Nat.mod_eq_of_lt hc
    have hgt' : row > s.rows := hgt
    simp only [step, hr', hc', if_pos hgt']
    have hcase : s.rows = 1 ∨ s.rows = 2 ∨ s.rows = 3 ∨ s.rows = 4 := by omega
    rcases hcase with h | h | h | h <;>
      rw [h] <;> simp [row_offsets, commandTx, LCD.Command.SetDDRAMAddr]
  · intro s col h4 hc
    have hr' : s.rows % 256 = s.rows := Nat.mod_eq_of_lt (by omega)
    have hc' : col % 256 = col := Nat.mod_eq_of_lt hc
    have hngt : ¬ (s.rows > s.rows) := lt_irrefl _
    simp only [step, hr', hc', if_neg hngt]
    have hcase : s.rows = 0 ∨ s.rows = 1 ∨ s.rows = 2 ∨ s.rows = 3 := by omega
    rcases hcase with h | h | h | h <;>
      rw [h] <;> simp [row_offsets, commandTx, LCD.Command.SetDDRAMAddr]

/-- Witness for C3: an over-range row on a 2-row display is clamped to
row 1 (`offset 0x40`), and `row == rows` on the same display reads
`offset[2] = 0x14` unclamped. -/
theorem setCursor_clamp_policy_witness :
    (step (LiquidCrystal_I2C.construct 0x27 16 2 0) (Op.setCursor 0 7) =
      some (LiquidCrystal_I2C.construct 0x27 16 2 0, [Tx.send
        ((LCD.Command.SetDDRAMAddr |||
          (0 + row_offsets.getD ((LiquidCrystal_I2C.construct 0x27 16 2 0).rows - 1) 0))
          % 256) 0])) ∧
    (step (LiquidCrystal_I2C.construct 0x27 16 2 0)
        (Op.setCursor 0 (LiquidCrystal_I2C.construct 0x27 16 2 0).rows) =
      some (LiquidCrystal_I2C.construct 0x27 16 2 0, [Tx.send
        ((LCD.Command.SetDDRAMAddr |||
          (0 + row_offsets.getD (LiquidCrystal_I2C.construct 0x27 16 2 0).rows 0))
          % 256) 0])) :=
  ⟨setCursor_clamp_policy.1 (LiquidCrystal_I2C.construct 0x27 16 2 0) 0 7
      (by decide) (by decide) (by decide) (by decide) (by decide),
   setCursor_clamp_policy.2 (LiquidCrystal_I2C.construct 0x27 16 2 0) 0
      (by decide) (by decide)⟩

/-- C4: `createChar(location, pattern)` masks the location to
`location &&& 0x7`, issues Set-CGRAM-Address with address
`(location &&& 0x7) <<< 3`, then emits the 8 pattern bytes as data writes in
array order — exactly 9 transmissions, the command first and no command in
between. -/
theorem createChar_masks_and_nine_txs (s : LiquidCrystal_I2C)
    (location : Nat) (charmap : List Nat)
    (hloc : location < 256) (hlen : charmap.length = 8) :
    step s (Op.createChar location charmap) =
      some (s, commandTx (LCD.Command.SetCGRAMAddr ||| ((location &&& 0x7) <<< 3)) ::
        charmap.map writeTx) ∧
    (commandTx (LCD.Command.SetCGRAMAddr ||| ((location &&& 0x7) <<< 3)) ::
        charmap.map writeTx).length = 9 := by
  have hloc' : location % 256 = location := Nat.mod_eq_of_lt hloc
  have htake : charmap.take 8 = charmap := by
    rw [← hlen]; exact List.take_length charmap
  constructor
  · simp only [step, hloc', htake]
    rw [if_pos (by omega)]
  · simp [hlen]

/-- Witness for C4 at `location = 0x4A` (masked to 2) and an 8-byte
pattern. -/
theorem createChar_masks_and_nine_txs_witness :
    (step (LiquidCrystal_I2C.construct 0x27 16 2 0)
        (Op.createChar 0x4A [1, 2, 3, 4, 5, 6, 7, 8]) =
      some (LiquidCrystal_I2C.construct 0x27 16 2 0,
        commandTx (LCD.Command.SetCGRAMAddr ||| ((0x4A &&& 0x7) <<< 3)) ::
          [1, 2, 3, 4, 5, 6, 7, 8].map writeTx) ∧
    (commandTx (LCD.Command.SetCGRAMAddr ||| ((0x4A &&& 0x7) <<< 3)) ::
        [1, 2, 3, 4, 5, 6, 7, 8].map writeTx).length = 9) :=
  createChar_masks_and_nine_txs (LiquidCrystal_I2C.construct 0x27 16 2 0)
    0x4A [1, 2, 3, 4, 5, 6, 7, 8] (by decide) (by decide)

/-- C6: on a 16x2 construction with the default font selector, `begin`
transmits Function-Set with function register `0x28 = 0x20 ||| 0x08`; in
general the 2-line bit (bit 3) is set exactly when `rows > 1`, and the
5x10-font bit (bit 2) is set exactly when `rows == 1` and the font selector
is non-zero. -/
theorem begin_functionSet_register :
    ((LiquidCrystal_I2C.construct 0x27 16 2 0).begin.2.get? 5 =
      some (Tx.send 0x28 0)) ∧
    (∀ a c r z : Nat, 1 < r % 256 →
      (beginFunction (LiquidCrystal_I2C.construct a c r z)).testBit 3 = true) ∧
    (∀ a c r z : Nat,
      ((beginFunction (LiquidCrystal_I2C.construct a c r z)).testBit 2 = true ↔
        (r % 256 = 1 ∧ z % 256 ≠ 0))) := by
  refine ⟨rfl, ?_, ?_⟩
  · intro a c r z h
    simp only [beginFunction, LiquidCrystal_I2C.construct]
    rw [if_pos h, if_neg (by omega : ¬ (z % 256 ≠ 0 ∧ r % 256 = 1))]
    decide
  · intro a c r z
    simp only [beginFunction, LiquidCrystal_I2C.construct]
    split_ifs with h1 h2 h2
    · exact absurd h1.2 (by omega)
    · exact ⟨fun _ => ⟨h1.2, h1.1⟩, fun _ => by decide⟩
    · exact ⟨fun hh => absurd hh (by decide), fun hh => absurd ⟨hh.2, hh.1⟩ h1⟩
    · exact ⟨fun hh => absurd hh (by decide), fun hh => absurd ⟨hh.2, hh.1⟩ h1⟩

/-- Witness for C6's quantified parts at a 20x1 display with the 5x10
selector: the 2-line bit is absent and the font bit present, and at 16x2
the 2-line bit is present. -/
theorem begin_functionSet_register_witness :
    (beginFunction (LiquidCrystal_I2C.construct 0x27 16 2 0)).testBit 3 = true ∧
    ((beginFunction (LiquidCrystal_I2C.construct 0x27 20 1 4)).testBit 2 = true ↔
      (1 % 256 = 1 ∧ 4 % 256 ≠ 0)) :=
  ⟨begin_functionSet_register.2.1 0x27 16 2 0 (by decide),
   begin_functionSet_register.2.2 0x27 20 1 4⟩

/-- C7: `write(value)` sends the byte as data and returns 1: the one `send`
call carries the Rs mode bit and expands to exactly two nibble
transmissions, `(value &&& 0xF0) ||| Rs` then `((value <<< 4) &&& 0xF0) |||
Rs`; the returned count is 1 for every input. -/
theorem write_sends_data_and_returns_one (value : Nat) (h : value < 256) :
    LiquidCrystal_I2C.write value = ([Tx.send value LCD.Pin.Rs], 1) ∧
    (∀ bl : Nat, send bl value LCD.Pin.Rs =
      write4bits bl ((value &&& 0xF0) ||| LCD.Pin.Rs) ++
      write4bits bl (((value <<< 4) &&& 0xF0) ||| LCD.Pin.Rs)) ∧
    (∀ w : Nat, (LiquidCrystal_I2C.write w).2 = 1) := by
  have h' : value % 256 = value := Nat.mod_eq_of_lt h
  refine ⟨?_, ?_, fun w => rfl⟩
  · simp [LiquidCrystal_I2C.write, writeTx, h']
  · intro bl
    simp only [send, h']
    rfl

/-- Witness for C7 at `value = 0x41` (the `write('A')` scenario). -/
theorem write_sends_data_and_returns_one_witness :
    (send 8 0x41 LCD.Pin.Rs =
      write4bits 8 ((0x41 &&& 0xF0) ||| LCD.Pin.Rs) ++
      write4bits 8 (((0x41 <<< 4) &&& 0xF0) ||| LCD.Pin.Rs)) ∧
    (LiquidCrystal_I2C.write 0x41).2 = 1 :=
  ⟨(write_sends_data_and_returns_one 0x41 (by decide)).2.1 8,
   (write_sends_data_and_returns_one 0x41 (by decide)).2.2 0x41⟩

/-- C10: `clear`, `home`, `setCursor`, `scrollDisplayLeft`,
`scrollDisplayRight`, `createChar`, `command` and `write` leave the
function, control, entry-mode and backlight shadow fields unchanged, for
every starting state and every argument. -/
theorem frame_ops_preserve_shadow (s : LiquidCrystal_I2C)
    (col row location value w : Nat) (charmap : List Nat) :
    framePreserving s Op.clear ∧
    framePreserving s Op.home ∧
    framePreserving s (Op.setCursor col row) ∧
    framePreserving s Op.scrollDisplayLeft ∧
    framePreserving s Op.scrollDisplayRight ∧
    framePreserving s (Op.createChar location charmap) ∧
    framePreserving s (Op.command value) ∧
    framePreserving s (Op.write w) := by
  refine ⟨?_, ?_, ?_, ?_, ?_, ?_, ?_, ?_⟩ <;>
    (intro s' tr h
     simp only [step, LiquidCrystal_I2C.write] at h) <;>
    try split at h
  all_goals
    first
    | exact Option.noConfusion h
    | (injection h with h'; cases h'; exact ⟨rfl, rfl, rfl, rfl⟩)

/-- Witness for C10: a concrete `setCursor` call on a 16x2 driver leaves
all four shadow fields as constructed. -/
theorem frame_ops_preserve_shadow_witness :
    (LiquidCrystal_I2C.construct 0x27 16 2 0).displayfunction =
      (LiquidCrystal_I2C.construct 0x27 16 2 0).displayfunction ∧
    (LiquidCrystal_I2C.construct 0x27 16 2 0).displaycontrol =
      (LiquidCrystal_I2C.construct 0x27 16 2 0).displaycontrol ∧
    (LiquidCrystal_I2C.construct 0x27 16 2 0).displaymode =
      (LiquidCrystal_I2C.construct 0x27 16 2 0).displaymode ∧
    (LiquidCrystal_I2C.construct 0x27 16 2 0).backlightval =
      (LiquidCrystal_I2C.construct 0x27 16 2 0).backlightval :=
  (frame_ops_preserve_shadow (LiquidCrystal_I2C.construct 0x27 16 2 0)
      3 1 0 0 0 []).2.2.1
    (LiquidCrystal_I2C.construct 0x27 16 2 0) [Tx.send 0xC3 0] rfl

lemma dcToggle_testBit_two (c : Nat) (b : Bool) :
    (dcToggle c b).testBit 2 = b := by
  cases b with
  | true =>
    show (c ||| LCD.Control.On).testBit 2 = true
    rw [Nat.testBit_lor, show (LCD.Control.On : Nat).testBit 2 = true from by decide]
    simp
  | false =>
    show (c &&& (0xFF ^^^ LCD.Control.On)).testBit 2 = false
    rw [Nat.testBit_land, show ((0xFF ^^^ LCD.Control.On : Nat)).testBit 2 = false from by decide]
    simp

lemma dcToggle_testBit_other (c : Nat) (b : Bool) (i : Nat)
    (hi : i ≠ 2) (hc : c < 256) :
    (dcToggle c b).testBit i = c.testBit i := by
  cases b with
  | true =>
    show (c ||| LCD.Control.On).testBit i = c.testBit i
    rw [Nat.testBit_lor]
    have h4 : (LCD.Control.On : Nat).testBit i = false := by
      rw [show (LCD.Control.On : Nat) = 2 ^ 2 from rfl, Nat.testBit_two_pow]
      simp [Ne.symm hi]
    simp [h4]
  | false =>
    show (c &&& (0xFF ^^^ LCD.Control.On)).testBit i = c.testBit i
    rw [Nat.testBit_land]
    rcases Nat.lt_or_ge i 8 with h8 | h8
    · have hm : (0xFF ^^^ LCD.Control.On : Nat).testBit i = true := by
        rw [show (0xFF ^^^ LCD.Control.On : Nat) = 2 ^ 8 - 1 ^^^ 2 ^ 2 from by decide,
          Nat.testBit_xor, Nat.testBit_two_pow_sub_one, Nat.testBit_two_pow]
        simp [h8, Ne.symm hi]
      simp [hm]
    · have hcf : c.testBit i = false := by
        apply Nat.testBit_lt_two_pow
        calc c < 256 := hc
          _ = 2 ^ 8 := by norm_num
          _ ≤ 2 ^ i := Nat.pow_le_pow_right (by norm_num) h8
      simp [hcf]

lemma dcToggle_lt (c : Nat) (b : Bool) (hc : c < 256) : dcToggle c b < 256 := by
  cases b with
  | true =>
    show c ||| LCD.Control.On < 256
    have h2 : (256 : Nat) = 2 ^ 8 := by norm_num
    rw [h2] at hc ⊢
    exact Nat.or_lt_two_pow hc (by decide)
  | false =>
    show c &&& (0xFF ^^^ LCD.Control.On) < 256
    exact lt_of_le_of_lt Nat.and_le_left hc

lemma foldl_dcToggle_lt (bs : List Bool) (c : Nat) (hc : c < 256) :
    bs.foldl dcToggle c < 256 := by
  induction bs generalizing c with
  | nil => exact hc
  | cons b bs ih => exact ih (dcToggle c b) (dcToggle_lt c b hc)

lemma foldl_dcToggle_testBit_other (bs : List Bool) (c : Nat) (i : Nat)
    (hi : i ≠ 2) (hc : c < 256) :
    (bs.foldl dcToggle c).testBit i = c.testBit i := by
  induction bs generalizing c with
  | nil => rfl
  | cons b bs ih =>
    rw [List.foldl_cons, ih (dcToggle c b) (dcToggle_lt c b hc),
      dcToggle_testBit_other c b i hi hc]

lemma foldl_dcToggle_getLast_cons (bs : List Bool) (b0 : Bool) (c : Nat) :
    ((b0 :: bs).foldl dcToggle c).testBit 2 =
      (b0 :: bs).getLast (List.cons_ne_nil b0 bs) := by
  induction bs generalizing c b0 with
  | nil =>
    rw [List.foldl_cons, List.foldl_nil, dcToggle_testBit_two]
    rfl
  | cons b bs ih =>
    rw [List.foldl_cons]
    rw [ih b (dcToggle c b0)]
    exact (List.getLast_cons (List.cons_ne_nil b bs)).symm

lemma foldl_dcToggle_getLast (bs : List Bool) (hne : bs ≠ []) (c : Nat) :
    (bs.foldl dcToggle c).testBit 2 = bs.getLast hne := by
  cases bs with
  | nil => exact absurd rfl hne
  | cons b0 bs => exact foldl_dcToggle_getLast_cons bs b0 c

lemma run_cons_of (s : LiquidCrystal_I2C) (op : Op)
    (s1 : LiquidCrystal_I2C) (bs1 : List Nat) (ops : List Op)
    (s2 : LiquidCrystal_I2C) (tr2 : List Nat)
    (h1 : stepBytes s op = some (s1, bs1)) (h2 : run s1 ops = some (s2, tr2)) :
    run s (op :: ops) = some (s2, bs1 ++ tr2) := by
  simp [run, h1, h2]

lemma run_displayToggle (bs : List Bool) (s : LiquidCrystal_I2C) :
    ∃ tr, run s (bs.map toDisplayOp) =
      some ({ s with displaycontrol := bs.foldl dcToggle s.displaycontrol }, tr) := by
  induction bs generalizing s with
  | nil => exact ⟨[], rfl⟩
  | cons b bs ih =>
    obtain ⟨tr, htr⟩ := ih { s with displaycontrol := dcToggle s.displaycontrol b }
    have hstep : stepBytes s (toDisplayOp b) =
        some ({ s with displaycontrol := dcToggle s.displaycontrol b },
          [commandTx (LCD.Command.DisplayControl ||| dcToggle s.displaycontrol b)].flatMap
            (txBytes s.backlightval)) := by
      cases b <;> rfl
    exact ⟨_, run_cons_of s (toDisplayOp b) _ _ _ _ _ hstep htr⟩

/-- C8: for every nonempty sequence of `display()` / `noDisplay()` calls
from any (byte-valued) starting state, the run succeeds and the resulting
control-register shadow has its display-on bit (bit 2) set exactly when the
last call was `display()`, with every other bit of the control register
unchanged; in particular repeating a call is idempotent. -/
theorem display_sequence_last_call_wins (s : LiquidCrystal_I2C)
    (bs : List Bool) (hne : bs ≠ []) (hc : s.displaycontrol < 256) :
    ∃ s' tr, run s (bs.map toDisplayOp) = some (s', tr) ∧
      s'.displaycontrol.testBit 2 = bs.getLast hne ∧
      ∀ i : Nat, i ≠ 2 →
        s'.displaycontrol.testBit i = s.displaycontrol.testBit i := by
  obtain ⟨tr, htr⟩ := run_displayToggle bs s
  refine ⟨_, tr, htr, ?_, ?_⟩
  · exact foldl_dcToggle_getLast bs hne s.displaycontrol
  · intro i hi
    exact foldl_dcToggle_testBit_other bs s.displaycontrol i hi hc

/-- Witness for C8: the sequence `display(); noDisplay(); noDisplay()` on a
fresh 16x2 driver. -/
theorem display_sequence_last_call_wins_witness :
    ∃ s' tr, run (LiquidCrystal_I2C.construct 0x27 16 2 0)
        ([true, false, false].map toDisplayOp) = some (s', tr) ∧
      s'.displaycontrol.testBit 2 =
        [true, false, false].getLast (List.cons_ne_nil true [false, false]) ∧
      ∀ i : Nat, i ≠ 2 →
        s'.displaycontrol.testBit i =
          (LiquidCrystal_I2C.construct 0x27 16 2 0).displaycontrol.testBit i :=
  display_sequence_last_call_wins (LiquidCrystal_I2C.construct 0x27 16 2 0)
    [true, false, false] (List.cons_ne_nil true [false, false]) (by decide)

lemma stepBytes_eq (s : LiquidCrystal_I2C) (op : Op)
    (s' : LiquidCrystal_I2C) (bs : List Nat)
    (h : stepBytes s op = some (s', bs)) :
    ∃ txs, step s op = some (s', txs) ∧
      bs = txs.flatMap (txBytes s'.backlightval) := by
  unfold stepBytes at h
  rw [Option.map_eq_some'] at h
  obtain ⟨p, hp, he⟩ := h
  cases p with
  | mk ps pl =>
    injection he with h1 h2
    subst h1
    subst h2
    exact ⟨pl, hp, rfl⟩

lemma step_backlightval (s : LiquidCrystal_I2C) (op : Op)
    (s' : LiquidCrystal_I2C) (txs : List Tx)
    (h : step s op = some (s', txs)) :
    s'.backlightval = backlightOf s.backlightval op := by
  cases op <;> simp only [step, LiquidCrystal_I2C.write] at h <;> try split at h
  all_goals
    first
    | exact Option.noConfusion h
    | (injection h with h'
       cases h'
       rfl)

lemma run_backlightval (ops : List Op) (s s' : LiquidCrystal_I2C) (tr : List Nat)
    (h : run s ops = some (s', tr)) :
    s'.backlightval = ops.foldl backlightOf s.backlightval := by
  induction ops generalizing s tr with
  | nil =>
    simp only [run] at h
    injection h with h'
    cases h'
    rfl
  | cons op ops ih =>
    simp only [run] at h
    rw [Option.bind_eq_some] at h
    obtain ⟨p, hp, h2⟩ := h
    rw [Option.map_eq_some'] at h2
    obtain ⟨q, hq, he⟩ := h2
    cases p with
    | mk p1 pbs =>
      cases q with
      | mk q1 qtr =>
        injection he with h1 h2
        subst h1
        obtain ⟨txs, hst, -⟩ := stepBytes_eq s op p1 pbs hp
        rw [List.foldl_cons, ← step_backlightval s op p1 txs hst]
        exact ih p1 qtr hq

lemma step_goodTx (s : LiquidCrystal_I2C) (op : Op)
    (s' : LiquidCrystal_I2C) (txs : List Tx)
    (h : step s op = some (s', txs)) :
    ∀ tx ∈ txs, goodTx tx := by
  cases op <;> simp only [step, LiquidCrystal_I2C.write] at h <;> try split at h
  all_goals
    first
    | exact Option.noConfusion h
    | (injection h with h'
       cases h'
       intro tx htx
       first
       | (obtain rfl := List.mem_singleton.mp htx
          first
          | exact Or.inl rfl
          | exact Or.inr rfl
          | exact rfl)
       | (rcases List.mem_cons.mp htx with rfl | htx2
          · exact Or.inl rfl
          · obtain ⟨bb, hbb, rfl⟩ := List.mem_map.mp htx2
            exact Or.inr rfl))

lemma testBit3_mod256 (x : Nat) : (x % 256).testBit 3 = x.testBit 3 := by
  rw [show (256 : Nat) = 2 ^ 8 from by norm_num, Nat.testBit_mod_two_pow]
  simp

lemma expanderWrite_bit3 (bl d : Nat) (hd : d.testBit 3 = false) :
    ∀ b ∈ expanderWrite bl d, b.testBit 3 = bl.testBit 3 := by
  intro b hb
  obtain rfl := List.mem_singleton.mp hb
  rw [testBit3_mod256, Nat.testBit_lor, testBit3_mod256, hd]
  simp

lemma pulseEnable_bit3 (bl d : Nat) (hd : d.testBit 3 = false) :
    ∀ b ∈ pulseEnable bl d, b.testBit 3 = bl.testBit 3 := by
  intro b hb
  rcases List.mem_append.mp hb with hb' | hb'
  · refine expanderWrite_bit3 bl _ ?_ b hb'
    rw [Nat.testBit_lor, testBit3_mod256, hd]
    decide
  · refine expanderWrite_bit3 bl _ ?_ b hb'
    rw [Nat.testBit_land, testBit3_mod256, hd]
    simp

lemma write4bits_bit3 (bl v : Nat) (hv : v.testBit 3 = false) :
    ∀ b ∈ write4bits bl v, b.testBit 3 = bl.testBit 3 := by
  intro b hb
  rcases List.mem_append.mp hb with hb' | hb'
  · exact expanderWrite_bit3 bl v hv b hb'
  · exact pulseEnable_bit3 bl v hv b hb'

lemma send_bit3 (bl v m : Nat) (hm : m = 0 ∨ m = LCD.Pin.Rs) :
    ∀ b ∈ send bl v m, b.testBit 3 = bl.testBit 3 := by
  have hm3 : (m % 256).testBit 3 = false := by
    rcases hm with rfl | rfl <;> decide
  intro b hb
  rcases List.mem_append.mp hb with hb' | hb'
  · refine write4bits_bit3 bl _ ?_ b hb'
    rw [Nat.testBit_lor, hm3, Nat.testBit_land,
      show (0xF0 : Nat).testBit 3 = false from by decide]
    simp
  · refine write4bits_bit3 bl _ ?_ b hb'
    rw [Nat.testBit_lor, hm3, Nat.testBit_land,
      show (0xF0 : Nat).testBit 3 = false from by decide]
    simp

lemma txBytes_bit3 (bl : Nat) (tx : Tx) (hg : goodTx tx) :
    ∀ b ∈ txBytes bl tx, b.testBit 3 = bl.testBit 3 := by
  cases tx with
  | send v m => exact send_bit3 bl v m hg
  | raw d =>
    have hg' : d = 0 := hg
    subst hg'
    exact expanderWrite_bit3 bl 0 (by decide)
  | nib v => exact False.elim hg

lemma stepBytes_bit3 (s : LiquidCrystal_I2C) (op : Op)
    (s' : LiquidCrystal_I2C) (bs : List Nat)
    (h : stepBytes s op = some (s', bs)) :
    ∀ b ∈ bs, b.testBit 3 = s'.backlightval.testBit 3 := by
  obtain ⟨txs, hst, rfl⟩ := stepBytes_eq s op s' bs h
  intro b hb
  obtain ⟨tx, htx, hbtx⟩ := List.mem_flatMap.mp hb
  exact txBytes_bit3 s'.backlightval tx (step_goodTx s op s' txs hst tx htx) b hbtx

lemma foldl_backlightOf_mem (ops : List Op) (x : Nat) (hx : x = 0 ∨ x = 8) :
    ops.foldl backlightOf x = 0 ∨ ops.foldl backlightOf x = 8 := by
  induction ops generalizing x with
  | nil => exact hx
  | cons op ops ih =>
    rw [List.foldl_cons]
    apply ih
    cases op <;> first | exact hx | exact Or.inr rfl | exact Or.inl rfl

/-- C5: every wire byte carries the current backlight shadow bit.  After any
prefix `p` of public calls from construction, a following call `op` only
emits bytes whose bit 3 is set exactly when the last backlight-affecting
call of `p ++ [op]` was `backlight()` (or there was none, the constructor
default being backlight-on); after `noBacklight()` the bit is clear in every
byte, including those of unrelated operations such as `clear()`. -/
theorem backlight_bit_tracks_last_toggle
    (a c r z : Nat) (p : List Op) (s : LiquidCrystal_I2C) (tr : List Nat)
    (op : Op) (s2 : LiquidCrystal_I2C) (bs : List Nat) (b : Nat)
    (hrun : run (LiquidCrystal_I2C.construct a c r z) p = some (s, tr))
    (hstep : stepBytes s op = some (s2, bs)) (hb : b ∈ bs) :
    (b.testBit 3 = true ↔ lastBacklight (p ++ [op]) = LCD.Backlight.On) := by
  have h1 : s.backlightval = p.foldl backlightOf LCD.Backlight.On :=
    run_backlightval p (LiquidCrystal_I2C.construct a c r z) s tr hrun
  obtain ⟨txs, hst, -⟩ := stepBytes_eq s op s2 bs hstep
  have h2 : s2.backlightval = backlightOf s.backlightval op :=
    step_backlightval s op s2 txs hst
  have h3 : lastBacklight (p ++ [op]) = s2.backlightval := by
    unfold lastBacklight
    rw [List.foldl_append, h2, h1]
    rfl
  have h4 : b.testBit 3 = s2.backlightval.testBit 3 :=
    stepBytes_bit3 s op s2 bs hstep b hb
  have h5 : s2.backlightval = 0 ∨ s2.backlightval = 8 := by
    rw [h2, h1]
    have hfold := foldl_backlightOf_mem p LCD.Backlight.On (Or.inr rfl)
    cases op <;> first | exact hfold | exact Or.inr rfl | exact Or.inl rfl
  rw [h4, h3]
  rcases h5 with h | h <;> rw [h] <;> decide

/-- Witness for C5: after `noBacklight()`, the byte `0x10` emitted during a
subsequent `clear()` has the backlight bit clear. -/
theorem backlight_bit_tracks_last_toggle_witness :
    ((16 : Nat).testBit 3 = true ↔
      lastBacklight ([Op.noBacklight] ++ [Op.clear]) = LCD.Backlight.On) :=
  backlight_bit_tracks_last_toggle 0x27 16 2 0 [Op.noBacklight]
    { LiquidCrystal_I2C.construct 0x27 16 2 0 with backlightval := 0 } [0]
    Op.clear
    { LiquidCrystal_I2C.construct 0x27 16 2 0 with backlightval := 0 }
    [0, 4, 0, 16, 20, 16] 16 rfl rfl (by decide)
